import Mathlib

/-!
Shallow embedding of the logspout-cloudwatch delivery pipeline.

The embedded code is the `CloudwatchUploader` (its `Start` loop,
`getSequenceToken`, `groupExists`, `createGroup`,
`createGroupRetentionPolicy`, `createStream`) and the
`CloudwatchAdapter.Stream` loop.  Remote AWS calls are modelled as an
oracle (`AwsService`) threading an abstract service state, and every
call made is recorded, together with its response, in a trace of
`AwsEvent`s.  Go's unbounded recursion in `getSequenceToken` is made
total with an explicit recursion-depth argument (`fuel`): a run with
fuel `n` performs at most `n` resolution rounds.
-/

namespace Logspout

/-- A message as handed to the uploader (Go `CloudwatchMessage`).
`TimeNano` is the message's arrival time as Unix nanoseconds
(Go `msg.Time.UnixNano()`). -/
structure CloudwatchMessage where
  Message : String
  Group : String
  Stream : String
  TimeNano : Int
  Container : String
deriving DecidableEq, Repr

/-- A batch of messages (Go `CloudwatchBatch`). -/
structure CloudwatchBatch where
  Msgs : List CloudwatchMessage
  Size : Int
deriving DecidableEq, Repr

/-- A log stream as returned by `DescribeLogStreams`. -/
structure LogStream where
  Name : String
  UploadSequenceToken : Option String
deriving DecidableEq, Repr

/-- One event of a `PutLogEvents` request (Go `cloudwatchlogs.InputLogEvent`). -/
structure InputLogEvent where
  Message : String
  Timestamp : Int
deriving DecidableEq, Repr

/-- The parameters of a `PutLogEvents` request. -/
structure PutLogEventsInput where
  LogEvents : List InputLogEvent
  LogGroupName : String
  LogStreamName : String
  SequenceToken : Option String
deriving DecidableEq, Repr

/-- A Go `(value, error)` result. -/
inductive Res (α : Type) where
  | ok (a : α)
  | error (e : String)
deriving DecidableEq, Repr

/-- The remote CloudWatch Logs service, as an oracle threading an
abstract service state `σ`.  Each field models one AWS SDK call used by
the uploader. -/
structure AwsService (σ : Type) where
  describeLogGroups : String → σ → Res (List String) × σ
  createLogGroup : String → σ → Res Unit × σ
  putRetentionPolicy : String → Int → σ → Res Unit × σ
  describeLogStreams : String → String → σ → Res (List LogStream) × σ
  createLogStream : String → String → σ → Res Unit × σ
  putLogEvents : PutLogEventsInput → σ → Res (Option String) × σ

/-- One remote call together with its response, as recorded in a trace. -/
inductive AwsEvent where
  | listGroups (namePfx : String) (r : Res (List String))
  | createGroup (group : String) (r : Res Unit)
  | putRetention (group : String) (days : Int) (r : Res Unit)
  | listStreams (group stream : String) (r : Res (List LogStream))
  | createStream (group stream : String) (r : Res Unit)
  | putLogEvents (inp : PutLogEventsInput) (r : Res (Option String))
deriving DecidableEq, Repr

/-- Association-list lookup, modelling Go map read `m[k]`. -/
def mapLookup {α : Type} : List (String × α) → String → Option α
  | [], _ => none
  | (k', v) :: rest, k => if k' = k then some v else mapLookup rest k

/-- Association-list update, modelling Go map write `m[k] = v`. -/
def mapInsert {α : Type} : List (String × α) → String → α → List (String × α)
  | [], k, v => [(k, v)]
  | (k', v') :: rest, k, v =>
    if k' = k then (k, v) :: rest else (k', v') :: mapInsert rest k v

/-- Go `CloudwatchUploader.groupExists`: list groups by name prefix and
accept only an exact name match (the Go loop over `resp.LogGroups`
returning true on `*matchedGroup.LogGroupName == group`). -/
def groupExists {σ : Type} (svc : AwsService σ) (group : String) (s : σ) :
    Res Bool × σ × List AwsEvent :=
  match svc.describeLogGroups group s with
  | (.error e, sA) => (.error e, sA, [.listGroups group (.error e)])
  | (.ok gs, sA) => (.ok (gs.contains group), sA, [.listGroups group (.ok gs)])

/-- The `!groupExists` branch of Go `getSequenceToken` (lines 129-139):
create the group, then, if a retention-days value is configured for this
group, apply the retention policy; any error aborts. -/
def createGroupWithRetention {σ : Type} (svc : AwsService σ)
    (retentiondays : String → Option Int) (group : String) (s : σ) :
    Res Unit × σ × List AwsEvent :=
  match svc.createLogGroup group s with
  | (.error e, sA) => (.error e, sA, [.createGroup group (.error e)])
  | (.ok _, sA) =>
    match retentiondays group with
    | none => (.ok (), sA, [.createGroup group (.ok ())])
    | some d =>
      match svc.putRetentionPolicy group d sA with
      | (.error e, sB) =>
        (.error e, sB, [.createGroup group (.ok ()), .putRetention group d (.error e)])
      | (.ok _, sB) =>
        (.ok (), sB, [.createGroup group (.ok ()), .putRetention group d (.ok ())])

/-- Go `fmt.Sprintf("%d streams match group %s, stream %s!", ...)`. -/
def errAmbiguity (count : Nat) (group stream : String) : String :=
  toString count ++ " streams match group " ++ group ++ ", stream " ++ stream ++ "!"

/-- Go `CloudwatchUploader.getSequenceToken`.  Checks group existence
(creating the group, with optional retention policy, when absent), lists
streams by prefix, errors when more than one stream matches, creates the
stream and recurses when none matches, and otherwise returns the single
matching stream's upload sequence token.  The Go recursion is unbounded;
`fuel` bounds the number of resolution rounds in the embedding (the
match on the stream list mirrors Go's `count > 1` / `count == 0` /
`resp.LogStreams[0]` checks). -/
def getSequenceToken {σ : Type} (svc : AwsService σ)
    (retentiondays : String → Option Int) (msg : CloudwatchMessage) :
    Nat → σ → Res (Option String) × σ × List AwsEvent
  | 0, s => (.error "recursion depth exhausted", s, [])
  | fuel + 1, s =>
    match groupExists svc msg.Group s with
    | (.error e, sA, trA) => (.error e, sA, trA)
    | (.ok ge, sA, trA) =>
      match (if ge then (Res.ok (), sA, ([] : List AwsEvent))
             else createGroupWithRetention svc retentiondays msg.Group sA) with
      | (.error e, sB, trB) => (.error e, sB, trA ++ trB)
      | (.ok _, sB, trB) =>
        match svc.describeLogStreams msg.Group msg.Stream sB with
        | (.error e, sC) =>
          (.error e, sC, trA ++ trB ++ [.listStreams msg.Group msg.Stream (.error e)])
        | (.ok streams, sC) =>
          match streams with
          | [] =>
            match svc.createLogStream msg.Group msg.Stream sC with
            | (.error e, sD) =>
              (.error e, sD, trA ++ trB ++ [.listStreams msg.Group msg.Stream (.ok streams),
                .createStream msg.Group msg.Stream (.error e)])
            | (.ok _, sD) =>
              match getSequenceToken svc retentiondays msg fuel sD with
              | (r, sE, trE) =>
                (r, sE, trA ++ trB ++ [.listStreams msg.Group msg.Stream (.ok streams),
                  .createStream msg.Group msg.Stream (.ok ())] ++ trE)
          | [stOne] =>
            (.ok stOne.UploadSequenceToken, sC,
             trA ++ trB ++ [.listStreams msg.Group msg.Stream (.ok streams)])
          | _ :: _ :: more =>
            (.error (errAmbiguity (more.length + 2) msg.Group msg.Stream), sC,
             trA ++ trB ++ [.listStreams msg.Group msg.Stream (.ok streams)])

/-- The event list built from a batch (Go lines 86-93): one
`InputLogEvent` per message, in batch order, carrying the message text
and `msg.Time.UnixNano() / 1000000` (nanoseconds truncated to milliseconds;
Go's `int64` division truncates toward zero, hence `Int.tdiv`). -/
def mkEvents (msgs : List CloudwatchMessage) : List InputLogEvent :=
  msgs.map (fun m => { Message := m.Message, Timestamp := m.TimeNano.tdiv 1000000 })

/-- The outcome of one iteration of the `Start` loop for one batch. -/
inductive DeliveryResult where
  | emptyBatch
  | dropped (e : String)
  | delivered
deriving DecidableEq, Repr

/-- The uploader's mutable state: the sequence-token cache
(Go `u.tokens`, a map keyed by the strings Go indexes it with) and the
remote service state. -/
structure UploaderState (σ : Type) where
  tokens : List (String × String)
  svc : σ
deriving Repr

/-- Lines 66-83 of the `Start` loop: fetch and cache the upload
sequence token for the batch's first message — from the cache when an
entry for `msg.Container` exists, otherwise from AWS via
`getSequenceToken` (caching a non-nil fetched token under
`msg.Container` right away); an AWS error aborts the batch. -/
def resolveToken {σ : Type} (svc : AwsService σ) (retentiondays : String → Option Int)
    (fuel : Nat) (st : UploaderState σ) (msg : CloudwatchMessage) :
    Res (Option String) × UploaderState σ × List AwsEvent :=
  match mapLookup st.tokens msg.Container with
  | some cached => (Res.ok (some cached), st, ([] : List AwsEvent))
  | none =>
    match getSequenceToken svc retentiondays msg fuel st.svc with
    | (.error e, sA, tr) => (Res.error e, { st with svc := sA }, tr)
    | (.ok none, sA, tr) => (Res.ok (none : Option String), { st with svc := sA }, tr)
    | (.ok (some t), sA, tr) =>
      (Res.ok (some t),
       { tokens := mapInsert st.tokens msg.Container t, svc := sA }, tr)

/-- One iteration of the Go `Start` loop (lines 56-114) for one batch:
skip empty batches; resolve the sequence token via `resolveToken`;
build the event list; POST `PutLogEvents` with the first message's
group and stream; on success cache the returned next sequence token
(again under `msg.Container`); on any error drop the batch and
continue. -/
def startStep {σ : Type} (svc : AwsService σ) (retentiondays : String → Option Int)
    (fuel : Nat) (st : UploaderState σ) (batch : CloudwatchBatch) :
    DeliveryResult × UploaderState σ × List AwsEvent :=
  match batch.Msgs with
  | [] => (.emptyBatch, st, [])
  | msg :: _ =>
    match resolveToken svc retentiondays fuel st msg with
    | (.error e, st1, tr1) => (.dropped e, st1, tr1)
    | (.ok token, st1, tr1) =>
      let params : PutLogEventsInput :=
        { LogEvents := mkEvents batch.Msgs
          LogGroupName := msg.Group
          LogStreamName := msg.Stream
          SequenceToken := token }
      match svc.putLogEvents params st1.svc with
      | (.error e, sB) =>
        (.dropped e, { st1 with svc := sB }, tr1 ++ [.putLogEvents params (.error e)])
      | (.ok next, sB) =>
        (.delivered,
         (match next with
          | some nt => { tokens := mapInsert st1.tokens msg.Container nt, svc := sB }
          | none => { st1 with svc := sB } : UploaderState σ),
         tr1 ++ [.putLogEvents params (.ok next)])

/-- The Go `Start` loop over a finite list of input batches, returning
the final uploader state and, per batch, the delivery outcome and the
trace of remote calls it made. -/
def start {σ : Type} (svc : AwsService σ) (retentiondays : String → Option Int)
    (fuel : Nat) :
    UploaderState σ → List CloudwatchBatch →
      UploaderState σ × List (DeliveryResult × List AwsEvent)
  | st, [] => (st, [])
  | st, batch :: rest =>
    match startStep svc retentiondays fuel st batch with
    | (r, st1, tr) =>
      match start svc retentiondays fuel st1 rest with
      | (stF, out) => (stF, (r, tr) :: out)

/-- Trace predicate: a `putLogEvents` call. -/
def isPutEv : AwsEvent → Bool
  | .putLogEvents _ _ => true
  | _ => false

/-- Trace predicate: a `listStreams` call. -/
def isListStreamsEv : AwsEvent → Bool
  | .listStreams _ _ _ => true
  | _ => false

/-- Trace predicate: a `createStream` call. -/
def isCreateStreamEv : AwsEvent → Bool
  | .createStream _ _ _ => true
  | _ => false

/-- Trace predicate: a `listGroups` call. -/
def isListGroupsEv : AwsEvent → Bool
  | .listGroups _ _ => true
  | _ => false

/-- Trace predicate: a successful `listStreams` call whose response
holds more than one stream (an ambiguous stream listing). -/
def ambiguousEv : AwsEvent → Bool
  | .listStreams _ _ (.ok l) => decide (1 < l.length)
  | _ => false

/-- Number of events of a trace satisfying `p`. -/
def countEv (p : AwsEvent → Bool) (tr : List AwsEvent) : Nat :=
  (tr.filter p).length

/-- The token returned by the most recent successful append for the
destination `(group, stream)` in a trace; stated from the spec's words
(the cursor "returned by the most recent successful append for that
exact destination"), for comparison with the code's cache. -/
def lastAppendToken (tr : List AwsEvent) (group stream : String) :
    Option (Option String) :=
  tr.foldl
    (fun acc ev =>
      match ev with
      | .putLogEvents inp (.ok next) =>
        if inp.LogGroupName = group ∧ inp.LogStreamName = stream then some next else acc
      | _ => acc)
    none

/-!
Embedding of `CloudwatchAdapter.Stream` (cloudwatch.go).  The docker
client, the `renderEnvValue` template rendering and `strconv.ParseInt`
are external collaborators (spec §6: configuration "resolved once and
cached", "not reimplemented here"); they are modelled as oracle
parameters.  `γ` is the opaque inspection result
(`containerData`). -/

/-- An incoming router message: the fields of `m` that
`CloudwatchAdapter.Stream` reads besides container metadata. -/
structure RouterMessage where
  Data : String
  ContainerID : String
deriving DecidableEq, Repr

/-- External collaborators of `CloudwatchAdapter.Stream`: container
inspection (`a.client.InspectContainer`), the three `renderEnvValue`
calls (group, stream, retention-days; each a function of the message and
the inspection result), and integer parsing (`strconv.ParseInt`,
returning `none` on a parse error). -/
structure AdapterEnv (γ : Type) where
  inspect : String → Res γ
  renderGroup : RouterMessage → γ → String
  renderStream : RouterMessage → γ → String
  renderRetention : RouterMessage → γ → String
  parseRetention : String → Option Int

/-- The adapter's caches: container ID → group name, container ID →
stream name, group name → retention days. -/
structure AdapterState where
  groupnames : List (String × String)
  streamnames : List (String × String)
  retentiondays : List (String × Int)
deriving DecidableEq, Repr

/-- One iteration of the Go `CloudwatchAdapter.Stream` loop (lines
69-119) for one message: read the per-container caches; when the group
or stream name is missing (empty), inspect the container — on
inspection error log and `continue` (the message is discarded) —
otherwise render and cache the group and stream names and, when a
non-empty retention value parses, cache the retention days; finally
hand a `CloudwatchMessage` to the batcher.  `now` is `time.Now()` as
Unix nanoseconds.  Returns the new adapter state and the message sent
to the batcher, if any. -/
def streamStep {γ : Type} (env : AdapterEnv γ) (st : AdapterState)
    (m : RouterMessage) (now : Int) : AdapterState × Option CloudwatchMessage :=
  let groupName := (mapLookup st.groupnames m.ContainerID).getD ""
  let streamName := (mapLookup st.streamnames m.ContainerID).getD ""
  if streamName = "" ∨ groupName = "" then
    match env.inspect m.ContainerID with
    | .error _ => (st, none)
    | .ok cd =>
      let g := env.renderGroup m cd
      let s := env.renderStream m cd
      let st1 : AdapterState :=
        { st with groupnames := mapInsert st.groupnames m.ContainerID g
                  streamnames := mapInsert st.streamnames m.ContainerID s }
      let rStr := env.renderRetention m cd
      let st2 : AdapterState :=
        if rStr ≠ "" then
          match env.parseRetention rStr with
          | some d => { st1 with retentiondays := mapInsert st1.retentiondays g d }
          | none => st1
        else st1
      (st2, some { Message := m.Data, Group := g, Stream := s,
                   TimeNano := now, Container := m.ContainerID })
  else
    (st, some { Message := m.Data, Group := groupName, Stream := streamName,
                TimeNano := now, Container := m.ContainerID })

/-!
A concrete mock of the remote service, used for concrete runs.  It
keeps the created groups and streams, answers the list calls by prefix
filtering, and mints sequence tokens `tk0`, `tk1`, ... on successful
appends.  The three failure flags freeze one call each in an
always-failing mode, to exercise the uploader's error paths.
-/

/-- The mock remote service's state. -/
structure MockState where
  groups : List String
  streams : List (String × String × Option String)
  tokenCtr : Nat
  retentionFails : Bool
  appendFails : Bool
  hideStreams : Bool
deriving DecidableEq, Repr

/-- The token minted by the mock for the `n`-th successful append. -/
def mockToken (n : Nat) : String := "tk" ++ toString n

/-- Prefix test on strings by character list (semantically
`String.isPrefixOf`; stated on `String.data` so that concrete mock runs
reduce in the kernel). -/
def strHasPfx (p s : String) : Bool := p.data.isPrefixOf s.data

/-- The concrete mock remote service. -/
def mockSvc : AwsService MockState where
  describeLogGroups := fun p st =>
    (.ok (st.groups.filter (fun g => strHasPfx p g)), st)
  createLogGroup := fun g st => (.ok (), { st with groups := st.groups ++ [g] })
  putRetentionPolicy := fun _ _ st =>
    if st.retentionFails then (.error "retention policy rejected", st) else (.ok (), st)
  describeLogStreams := fun g p st =>
    if st.hideStreams then (.ok [], st)
    else
      (.ok ((st.streams.filter (fun e => e.1 == g && strHasPfx p e.2.1)).map
        (fun e => { Name := e.2.1, UploadSequenceToken := e.2.2 })), st)
  createLogStream := fun g s st =>
    (.ok (), { st with streams := st.streams ++ [(g, s, none)] })
  putLogEvents := fun inp st =>
    if st.appendFails then (.error "append rejected", st)
    else
      let nt := mockToken st.tokenCtr
      (.ok (some nt),
       { st with
         tokenCtr := st.tokenCtr + 1
         streams := st.streams.map (fun e =>
           if e.1 == inp.LogGroupName && e.2.1 == inp.LogStreamName
           then (e.1, e.2.1, some nt) else e) })

/-- No retention configured for any group. -/
def rdNone : String → Option Int := fun _ => none

/-- Retention of 7 days configured for group `app`. -/
def rdApp7 : String → Option Int := fun g => if g = "app" then some 7 else none

/-- A mock state where nothing exists remotely yet. -/
def mockFresh : MockState :=
  { groups := [], streams := [], tokenCtr := 0,
    retentionFails := false, appendFails := false, hideStreams := false }

/-- A mock state where group `app` and stream `web-1` already exist,
with upload sequence token `T0`. -/
def mockReady : MockState :=
  { mockFresh with groups := ["app"], streams := [("app", "web-1", some "T0")] }

/-- A message from container `c1` for destination `(app, web-1)`. -/
def msgC1 : CloudwatchMessage :=
  { Message := "m1", Group := "app", Stream := "web-1",
    TimeNano := 1234567890, Container := "c1" }

/-- Three messages from container `c1` for destination `(app, web-1)`. -/
def msgs3 : List CloudwatchMessage :=
  [msgC1,
   { Message := "m2", Group := "app", Stream := "web-1",
     TimeNano := 2345678901, Container := "c1" },
   { Message := "m3", Group := "app", Stream := "web-1",
     TimeNano := 3456789012, Container := "c1" }]

/-- A batch of the three `c1` messages. -/
def batch3 : CloudwatchBatch := { Msgs := msgs3, Size := 6 }

/-- A one-message batch from container `c2` for the same destination
`(app, web-1)`. -/
def batchC2 : CloudwatchBatch :=
  { Msgs := [{ Message := "n1", Group := "app", Stream := "web-1",
               TimeNano := 4567890123, Container := "c2" }], Size := 2 }

/-- A mock state where the retention-policy call always fails. -/
def mockRetFail : MockState := { mockFresh with retentionFails := true }

/-- A mock state where group `app` exists but every stream listing
reports zero matches (created streams never become visible). -/
def mockLoop : MockState :=
  { mockFresh with groups := ["app"], hideStreams := true }

/-- A mock state where the destination exists with token `T0` but every
append fails. -/
def mockAppFail : MockState := { mockReady with appendFails := true }

/-- A mock state holding only a group whose name strictly extends
`app`. -/
def mockExt : MockState := { mockFresh with groups := ["app-extended"] }

/-- A mock state where two streams match the prefix `web-1`. -/
def mockTwo : MockState :=
  { mockFresh with
    groups := ["app"]
    streams := [("app", "web-1a", some "T1"), ("app", "web-1b", some "T2")] }

/-! ### Helper lemmas -/

theorem mapLookup_mapInsert {α : Type} (ts : List (String × α)) (k k' : String) (v : α) :
    mapLookup (mapInsert ts k v) k' = if k = k' then some v else mapLookup ts k' := by
  induction ts with
  | nil => simp [mapInsert, mapLookup]
  | cons hd tl ih =>
    obtain ⟨a, b⟩ := hd
    simp only [mapInsert]
    by_cases hak : a = k
    · subst hak
      by_cases hk : a = k' <;> simp [mapLookup, hk]
    · by_cases hk2 : a = k'
      · subst hk2
        have hne : ¬ a = k := hak
        have hne2 : ¬ k = a := fun h => hak h.symm
        simp [mapLookup, hne, hne2]
      · simp [mapLookup, hak, hk2, ih]

/-- `resolveToken` never touches a cache key other than
`msg.Container`. -/
theorem resolveToken_tokens {σ : Type} (svc : AwsService σ) (rd : String → Option Int)
    (fuel : Nat) (st : UploaderState σ) (msg : CloudwatchMessage) (k : String)
    (hk : ¬ msg.Container = k) :
    mapLookup (resolveToken svc rd fuel st msg).2.1.tokens k = mapLookup st.tokens k := by
  unfold resolveToken
  cases hls : mapLookup st.tokens msg.Container with
  | some cached => simp
  | none =>
    rcases hg : getSequenceToken svc rd msg fuel st.svc with ⟨r, sA, tr⟩
    cases r with
    | error e => simp
    | ok tok =>
      cases tok with
      | none => simp
      | some t => simp [mapLookup_mapInsert, hk]

/-! ### C1 -/

/-- C1 counterexample: containers `c1` and `c2` both write to the
destination `(app, web-1)`.  After both batches are delivered, the most
recent successful append for that destination returned cursor `tk1`,
yet the cache still holds cursor `tk0` (under key `c1`): the cache is
keyed by container identity, so a cached cursor for this destination is
not the one returned by the destination's most recent successful
append. -/
theorem cursor_cache_not_destination_keyed_cx :
    (∀ m ∈ batch3.Msgs ++ batchC2.Msgs, m.Group = "app" ∧ m.Stream = "web-1") ∧
    (start mockSvc rdNone 5 ⟨[], mockReady⟩ [batch3, batchC2]).2.map Prod.fst =
      [DeliveryResult.delivered, DeliveryResult.delivered] ∧
    lastAppendToken
      ((start mockSvc rdNone 5 ⟨[], mockReady⟩ [batch3, batchC2]).2.map Prod.snd).flatten
      "app" "web-1" = some (some "tk1") ∧
    (start mockSvc rdNone 5 ⟨[], mockReady⟩ [batch3, batchC2]).1.tokens =
      [("c1", "tk0"), ("c2", "tk1")] ∧
    ("tk0" : String) ≠ "tk1" := by
  decide

/-- C1 (amended): the sequence-token cache is keyed by the batch's
first message's container ID, not by the (group, stream) pair:
processing a batch can only create or modify the cache entry at that
container key, and every other key keeps its previous value — so two
containers sharing one destination hold independent entries. -/
theorem cursor_cache_container_keyed {σ : Type} (svc : AwsService σ)
    (rd : String → Option Int) (fuel : Nat) (st : UploaderState σ)
    (b : CloudwatchBatch) (msg : CloudwatchMessage) (tl : List CloudwatchMessage)
    (k : String) (hb : b.Msgs = msg :: tl) (hk : k ≠ msg.Container) :
    mapLookup (startStep svc rd fuel st b).2.1.tokens k = mapLookup st.tokens k := by
  have hk' : ¬ msg.Container = k := fun h => hk h.symm
  have hres := resolveToken_tokens svc rd fuel st msg k hk'
  rcases b with ⟨bm, bs⟩
  simp only [CloudwatchBatch.mk.injEq] at hb
  subst hb
  simp only [startStep]
  rcases hr : resolveToken svc rd fuel st msg with ⟨r, st1, tr1⟩
  rw [hr] at hres
  cases r with
  | error e => simpa using hres
  | ok token =>
    simp only []
    rcases hp : svc.putLogEvents
        { LogEvents := mkEvents (msg :: tl), LogGroupName := msg.Group,
          LogStreamName := msg.Stream, SequenceToken := token } st1.svc with ⟨rp, sB⟩
    cases rp with
    | error e => simp [hp]; exact hres
    | ok next =>
      cases next with
      | none => simp [hp]; exact hres
      | some nt =>
        simp [hp, mapLookup_mapInsert, hk']
        exact hres

/-- Witness for `cursor_cache_container_keyed` at a concrete batch and
cache key. -/
theorem cursor_cache_container_keyed_witness :
    mapLookup (startStep mockSvc rdNone 5 ⟨[("zz", "T9")], mockReady⟩ batch3).2.1.tokens "zz" =
      mapLookup [("zz", "T9")] "zz" :=
  cursor_cache_container_keyed mockSvc rdNone 5 ⟨[("zz", "T9")], mockReady⟩
    batch3 msgC1 (msgs3.drop 1) "zz" (by decide) (by decide)

/-! ### C5 -/

/-- C5 counterexample: cursor `tk0` is cached after `batch3`'s
successful append for destination `(app, web-1)`, yet the next batch
for that exact destination (from container `c2`) still issues one
`listGroups` and one `listStreams` call, because the cache is keyed by
container and `c2` has no entry. -/
theorem same_destination_requeries_cx :
    (start mockSvc rdNone 5 ⟨[], mockReady⟩ [batch3]).2.map Prod.fst =
      [DeliveryResult.delivered] ∧
    (start mockSvc rdNone 5 ⟨[], mockReady⟩ [batch3]).1.tokens = [("c1", "tk0")] ∧
    (∀ m ∈ batchC2.Msgs, m.Group = "app" ∧ m.Stream = "web-1") ∧
    countEv isListGroupsEv
      (startStep mockSvc rdNone 5 (start mockSvc rdNone 5 ⟨[], mockReady⟩ [batch3]).1
        batchC2).2.2 = 1 ∧
    countEv isListStreamsEv
      (startStep mockSvc rdNone 5 (start mockSvc rdNone 5 ⟨[], mockReady⟩ [batch3]).1
        batchC2).2.2 = 1 := by
  decide

/-- C5 (amended): the round-trip short-circuit is keyed by container
identity: when the cache holds a cursor `C` for the batch's first
message's container ID, the batch is submitted with cursor `C` and the
delivery makes exactly one remote call — the append; no `listGroups`,
`createGroup`, `listStreams` or `createStream` call is issued. -/
theorem cached_cursor_single_append {σ : Type} (svc : AwsService σ)
    (rd : String → Option Int) (fuel : Nat) (st : UploaderState σ)
    (b : CloudwatchBatch) (msg : CloudwatchMessage) (tl : List CloudwatchMessage)
    (C : String) (hb : b.Msgs = msg :: tl)
    (hc : mapLookup st.tokens msg.Container = some C) :
    ∃ r, (startStep svc rd fuel st b).2.2 =
      [AwsEvent.putLogEvents
        { LogEvents := mkEvents b.Msgs, LogGroupName := msg.Group,
          LogStreamName := msg.Stream, SequenceToken := some C } r] := by
  rcases b with ⟨bm, bs⟩
  simp only [CloudwatchBatch.mk.injEq] at hb
  subst hb
  simp only [startStep, resolveToken, hc]
  rcases hp : svc.putLogEvents
      { LogEvents := mkEvents (msg :: tl), LogGroupName := msg.Group,
        LogStreamName := msg.Stream, SequenceToken := some C } st.svc with ⟨rp, sB⟩
  cases rp with
  | error e => exact ⟨.error e, by simp [hp]⟩
  | ok next =>
    cases next with
    | none => exact ⟨.ok none, by simp [hp]⟩
    | some nt => exact ⟨.ok (some nt), by simp [hp]⟩

/-- Witness for `cached_cursor_single_append`: container `c1` has the
cached cursor `T7`. -/
theorem cached_cursor_single_append_witness :
    ∃ r, (startStep mockSvc rdNone 5 ⟨[("c1", "T7")], mockReady⟩ batch3).2.2 =
      [AwsEvent.putLogEvents
        { LogEvents := mkEvents batch3.Msgs, LogGroupName := msgC1.Group,
          LogStreamName := msgC1.Stream, SequenceToken := some "T7" } r] :=
  cached_cursor_single_append mockSvc rdNone 5 ⟨[("c1", "T7")], mockReady⟩
    batch3 msgC1 (msgs3.drop 1) "T7" (by decide) (by decide)

/-! ### C7 -/

/-- C7 counterexample: with no prior cache entry, the cursor fetched
during resolution (`T0`) is cached before the append; the append then
fails and the batch is dropped, but the cache has still gained the
entry `("c1", "T0")` — the cache state is not unchanged on error. -/
theorem failed_append_changes_cache_cx :
    (startStep mockSvc rdNone 5 ⟨[], mockAppFail⟩ batch3).1 =
      .dropped "append rejected" ∧
    countEv isPutEv (startStep mockSvc rdNone 5 ⟨[], mockAppFail⟩ batch3).2.2 = 1 ∧
    (startStep mockSvc rdNone 5 ⟨[], mockAppFail⟩ batch3).2.1.tokens = [("c1", "T0")] := by
  decide

/-- C7 (amended): when the append fails for a batch whose container had
a previously cached cursor, the batch is dropped, the token cache is
left entirely unchanged, exactly one append is attempted (no retry),
and the loop continues with the subsequent batches; only a cursor
freshly fetched during the same delivery can leave a new cache entry
behind a failed append (see `failed_append_changes_cache_cx`). -/
theorem append_failure_drops_and_continues {σ : Type} (svc : AwsService σ)
    (rd : String → Option Int) (fuel : Nat) (st : UploaderState σ)
    (b : CloudwatchBatch) (rest : List CloudwatchBatch)
    (msg : CloudwatchMessage) (tl : List CloudwatchMessage)
    (C e : String) (sB : σ) (hb : b.Msgs = msg :: tl)
    (hc : mapLookup st.tokens msg.Container = some C)
    (hput : svc.putLogEvents
      { LogEvents := mkEvents b.Msgs, LogGroupName := msg.Group,
        LogStreamName := msg.Stream, SequenceToken := some C } st.svc = (.error e, sB)) :
    (startStep svc rd fuel st b).1 = .dropped e ∧
    (startStep svc rd fuel st b).2.1.tokens = st.tokens ∧
    countEv isPutEv (startStep svc rd fuel st b).2.2 = 1 ∧
    start svc rd fuel st (b :: rest) =
      ((start svc rd fuel (startStep svc rd fuel st b).2.1 rest).1,
       ((startStep svc rd fuel st b).1, (startStep svc rd fuel st b).2.2) ::
         (start svc rd fuel (startStep svc rd fuel st b).2.1 rest).2) := by
  rcases b with ⟨bm, bs⟩
  simp only [CloudwatchBatch.mk.injEq] at hb
  subst hb
  have hstep : startStep svc rd fuel st ⟨msg :: tl, bs⟩ =
      (.dropped e, { tokens := st.tokens, svc := sB },
       [AwsEvent.putLogEvents
         { LogEvents := mkEvents (msg :: tl), LogGroupName := msg.Group,
           LogStreamName := msg.Stream, SequenceToken := some C } (.error e)]) := by
    simp only [startStep, resolveToken, hc]
    simp [hput]
  refine ⟨by simp [hstep], by simp [hstep], by simp [hstep, countEv, isPutEv], ?_⟩
  simp only [start, hstep]

/-- Witness for `append_failure_drops_and_continues`: container `c1`
has cached cursor `T7` and the mock append always fails. -/
theorem append_failure_drops_and_continues_witness :
    (startStep mockSvc rdNone 5 ⟨[("c1", "T7")], mockAppFail⟩ batch3).1 =
      .dropped "append rejected" ∧
    (startStep mockSvc rdNone 5 ⟨[("c1", "T7")], mockAppFail⟩ batch3).2.1.tokens =
      [("c1", "T7")] ∧
    countEv isPutEv (startStep mockSvc rdNone 5 ⟨[("c1", "T7")], mockAppFail⟩ batch3).2.2 = 1 ∧
    start mockSvc rdNone 5 ⟨[("c1", "T7")], mockAppFail⟩ (batch3 :: [batchC2]) =
      ((start mockSvc rdNone 5
          (startStep mockSvc rdNone 5 ⟨[("c1", "T7")], mockAppFail⟩ batch3).2.1 [batchC2]).1,
       ((startStep mockSvc rdNone 5 ⟨[("c1", "T7")], mockAppFail⟩ batch3).1,
        (startStep mockSvc rdNone 5 ⟨[("c1", "T7")], mockAppFail⟩ batch3).2.2) ::
         (start mockSvc rdNone 5
           (startStep mockSvc rdNone 5 ⟨[("c1", "T7")], mockAppFail⟩ batch3).2.1 [batchC2]).2) :=
  append_failure_drops_and_continues mockSvc rdNone 5 ⟨[("c1", "T7")], mockAppFail⟩
    batch3 [batchC2] msgC1 (msgs3.drop 1) "T7" "append rejected" mockAppFail
    (by decide) (by decide) (by decide)

/-! ### C2 -/

/-- C2 counterexample: the group is created successfully, the retention
call fails, and the batch is dropped without any append — delivery does
not proceed past a retention failure. -/
theorem retention_failure_drops_batch_cx :
    (startStep mockSvc rdApp7 5 ⟨[], mockRetFail⟩ batch3).1 =
      .dropped "retention policy rejected" ∧
    countEv isPutEv (startStep mockSvc rdApp7 5 ⟨[], mockRetFail⟩ batch3).2.2 = 0 ∧
    (startStep mockSvc rdApp7 5 ⟨[], mockRetFail⟩ batch3).2.2 =
      [.listGroups "app" (.ok []), .createGroup "app" (.ok ()),
       .putRetention "app" 7 (.error "retention policy rejected")] := by
  decide

/-- C2 (amended): a failure of the retention-policy call after
successful group creation aborts resolution with that error: the batch
is dropped and no append call is made — applying retention is
delivery-blocking for that batch, not best-effort. -/
theorem retention_failure_blocks_delivery {σ : Type} (svc : AwsService σ)
    (rd : String → Option Int) (fuel : Nat) (st : UploaderState σ)
    (b : CloudwatchBatch) (msg : CloudwatchMessage) (tl : List CloudwatchMessage)
    (gs : List String) (d : Int) (e : String) (sA sB sC : σ)
    (hb : b.Msgs = msg :: tl)
    (hnc : mapLookup st.tokens msg.Container = none)
    (hlg : svc.describeLogGroups msg.Group st.svc = (.ok gs, sA))
    (habs : gs.contains msg.Group = false)
    (hcg : svc.createLogGroup msg.Group sA = (.ok (), sB))
    (hrd : rd msg.Group = some d)
    (hpr : svc.putRetentionPolicy msg.Group d sB = (.error e, sC)) :
    (startStep svc rd (fuel + 1) st b).1 = .dropped e ∧
    (startStep svc rd (fuel + 1) st b).2.2 =
      [.listGroups msg.Group (.ok gs), .createGroup msg.Group (.ok ()),
       .putRetention msg.Group d (.error e)] := by
  rcases b with ⟨bm, bs⟩
  simp only [CloudwatchBatch.mk.injEq] at hb
  subst hb
  have habs' : msg.Group ∉ gs := by simpa using habs
  have hgst : getSequenceToken svc rd msg (fuel + 1) st.svc =
      (.error e, sC,
       [.listGroups msg.Group (.ok gs), .createGroup msg.Group (.ok ()),
        .putRetention msg.Group d (.error e)]) := by
    simp [getSequenceToken, groupExists, createGroupWithRetention,
      hlg, habs', hcg, hrd, hpr]
  constructor <;>
    simp [startStep, resolveToken, hnc, hgst]

/-- Witness for `retention_failure_blocks_delivery` against the mock
whose retention call always fails. -/
theorem retention_failure_blocks_delivery_witness :
    (startStep mockSvc rdApp7 (4 + 1) ⟨[], mockRetFail⟩ batch3).1 =
      .dropped "retention policy rejected" ∧
    (startStep mockSvc rdApp7 (4 + 1) ⟨[], mockRetFail⟩ batch3).2.2 =
      [.listGroups "app" (.ok []), .createGroup "app" (.ok ()),
       .putRetention "app" 7 (.error "retention policy rejected")] :=
  retention_failure_blocks_delivery mockSvc rdApp7 4 ⟨[], mockRetFail⟩
    batch3 msgC1 (msgs3.drop 1) [] 7 "retention policy rejected"
    mockRetFail { mockRetFail with groups := ["app"] }
    { mockRetFail with groups := ["app"] }
    (by decide) (by decide) (by decide) (by decide) (by decide) (by decide) (by decide)

/-! ### C3 -/

/-- C3 counterexample: with group `app` present and a stream listing
that reports zero matches on every query, a resolution run allowed 3
rounds creates the stream 3 times: after the second zero-match result
the code performs a third creation and re-query instead of yielding an
error. -/
theorem stream_resolution_recreates_cx :
    (getSequenceToken mockSvc rdNone msgC1 3 mockLoop).2.2 =
      [.listGroups "app" (.ok ["app"]), .listStreams "app" "web-1" (.ok []),
       .createStream "app" "web-1" (.ok ()),
       .listGroups "app" (.ok ["app"]), .listStreams "app" "web-1" (.ok []),
       .createStream "app" "web-1" (.ok ()),
       .listGroups "app" (.ok ["app"]), .listStreams "app" "web-1" (.ok []),
       .createStream "app" "web-1" (.ok ())] ∧
    countEv isCreateStreamEv (getSequenceToken mockSvc rdNone msgC1 3 mockLoop).2.2 = 3 := by
  decide

/-- C3 (amended): zero-match stream resolution is an unbounded
recursion (restarting from the group-existence check), not a bounded
one-creation-one-re-query procedure: against a service whose stream
listing reports zero matches on every query while the group exists, a
resolution run allowed `n` rounds performs exactly `n` stream
creations. -/
theorem stream_resolution_unbounded (n : Nat) (st : MockState)
    (hhide : st.hideStreams = true) (hgrp : st.groups.contains "app" = true) :
    countEv isCreateStreamEv (getSequenceToken mockSvc rdNone msgC1 n st).2.2 = n := by
  induction n generalizing st with
  | zero => simp [getSequenceToken, countEv]
  | succ n ih =>
    have hmem : "app" ∈ st.groups := by simpa using hgrp
    have hself : strHasPfx "app" "app" = true := by decide
    have hrec := ih { st with streams := st.streams ++ [("app", "web-1", none)] }
      (by simpa using hhide) (by simpa using hgrp)
    have hstep : (getSequenceToken mockSvc rdNone msgC1 (n + 1) st).2.2 =
        [AwsEvent.listGroups "app" (.ok (st.groups.filter (fun g => strHasPfx "app" g))),
         AwsEvent.listStreams "app" "web-1" (.ok []),
         AwsEvent.createStream "app" "web-1" (.ok ())] ++
        (getSequenceToken mockSvc rdNone msgC1 n
          { st with streams := st.streams ++ [("app", "web-1", none)] }).2.2 := by
      simp [getSequenceToken, groupExists, mockSvc, msgC1, hmem, hself, hhide]
    rw [hstep]
    have hpre : (List.filter isCreateStreamEv
        [AwsEvent.listGroups "app" (.ok (st.groups.filter (fun g => strHasPfx "app" g))),
         AwsEvent.listStreams "app" "web-1" (.ok []),
         AwsEvent.createStream "app" "web-1" (.ok ())]).length = 1 := by
      simp [isCreateStreamEv]
    simp only [countEv, List.filter_append, List.length_append, hpre]
    simp only [countEv] at hrec
    rw [hrec]
    omega

/-- Witness for `stream_resolution_unbounded` at two allowed rounds. -/
theorem stream_resolution_unbounded_witness :
    countEv isCreateStreamEv (getSequenceToken mockSvc rdNone msgC1 2 mockLoop).2.2 = 2 :=
  stream_resolution_unbounded 2 mockLoop (by decide) (by decide)

/-! ### C4 -/

/-- C4 counterexample: the fresh-destination delivery issues
`listGroups` twice — the stream creation restarts resolution, which
re-checks group existence — so the claimed sequence with exactly one
`listGroups` call does not occur. -/
theorem fresh_destination_extra_listgroups_cx :
    (startStep mockSvc rdNone 5 ⟨[], mockFresh⟩ batch3).1 = .delivered ∧
    countEv isListGroupsEv (startStep mockSvc rdNone 5 ⟨[], mockFresh⟩ batch3).2.2 = 2 := by
  decide

/-- C4 (amended): for a batch delivered to a destination with no
pre-existing group and no cached cursor, the remote calls are: one
`listGroups`, one `createGroup`, one `setRetention` exactly when
retention is configured, one `listStreams`, one `createStream`, then —
because resolution restarts — a second `listGroups` (now matching) and
a second `listStreams` (one match), then one `appendEvents` carrying
the batch's events in order with an absent cursor, whose returned next
cursor is cached. -/
theorem fresh_destination_call_sequence :
    ((startStep mockSvc rdNone 5 ⟨[], mockFresh⟩ batch3).2.2 =
      [.listGroups "app" (.ok []),
       .createGroup "app" (.ok ()),
       .listStreams "app" "web-1" (.ok []),
       .createStream "app" "web-1" (.ok ()),
       .listGroups "app" (.ok ["app"]),
       .listStreams "app" "web-1" (.ok [{ Name := "web-1", UploadSequenceToken := none }]),
       .putLogEvents { LogEvents := mkEvents batch3.Msgs, LogGroupName := "app",
                       LogStreamName := "web-1", SequenceToken := none }
         (.ok (some "tk0"))] ∧
     (startStep mockSvc rdNone 5 ⟨[], mockFresh⟩ batch3).2.1.tokens = [("c1", "tk0")]) ∧
    ((startStep mockSvc rdApp7 5 ⟨[], mockFresh⟩ batch3).2.2 =
      [.listGroups "app" (.ok []),
       .createGroup "app" (.ok ()),
       .putRetention "app" 7 (.ok ()),
       .listStreams "app" "web-1" (.ok []),
       .createStream "app" "web-1" (.ok ()),
       .listGroups "app" (.ok ["app"]),
       .listStreams "app" "web-1" (.ok [{ Name := "web-1", UploadSequenceToken := none }]),
       .putLogEvents { LogEvents := mkEvents batch3.Msgs, LogGroupName := "app",
                       LogStreamName := "web-1", SequenceToken := none }
         (.ok (some "tk0"))] ∧
     (startStep mockSvc rdApp7 5 ⟨[], mockFresh⟩ batch3).2.1.tokens = [("c1", "tk0")]) := by
  decide

/-! ### C8 -/

/-- C8: the group-existence check reports existence exactly when the
prefix-based group listing response contains a name equal to the target
group name; a listed name that merely extends the prefix is never
treated as existence. -/
theorem groupExists_exact_match {σ : Type} (svc : AwsService σ) (group : String)
    (s : σ) (gs : List String) (sA : σ)
    (h : svc.describeLogGroups group s = (.ok gs, sA)) :
    (groupExists svc group s).1 = .ok true ↔ group ∈ gs := by
  simp [groupExists, h]

/-- Witness for `groupExists_exact_match`: with a listing that holds
only the proper extension `app-extended` of the queried name `app`, the
check reports non-existence. -/
theorem groupExists_exact_match_witness :
    ((groupExists mockSvc "app" mockExt).1 = .ok true ↔ "app" ∈ ["app-extended"]) ∧
    (groupExists mockSvc "app" mockExt).1 = .ok false :=
  ⟨groupExists_exact_match mockSvc "app" mockExt ["app-extended"] mockExt (by decide),
   by decide⟩

/-! ### C10 -/

/-- C10: when an incoming message's container ID has no cached group or
stream name and inspecting the container fails, the message is silently
discarded: nothing is handed to the batcher and no group, stream, or
retention cache entry is created. -/
theorem inspect_failure_drops_message {γ : Type} (env : AdapterEnv γ)
    (st : AdapterState) (m : RouterMessage) (now : Int) (e : String)
    (hcache : mapLookup st.groupnames m.ContainerID = none ∨
              mapLookup st.streamnames m.ContainerID = none)
    (hfail : env.inspect m.ContainerID = .error e) :
    streamStep env st m now = (st, none) := by
  unfold streamStep
  rcases hcache with h | h
  · simp [h, hfail]
  · simp [h, hfail]

/-- A concrete adapter environment whose container inspection always
fails. -/
def envInspectFail : AdapterEnv Unit :=
  { inspect := fun _ => .error "inspect failed"
    renderGroup := fun _ _ => "g"
    renderStream := fun _ _ => "s"
    renderRetention := fun _ _ => ""
    parseRetention := fun _ => none }

/-- Witness for `inspect_failure_drops_message` at a concrete message
with empty caches. -/
theorem inspect_failure_drops_message_witness :
    streamStep envInspectFail
      { groupnames := [], streamnames := [], retentiondays := [] }
      { Data := "d", ContainerID := "c9" } 0 =
      ({ groupnames := [], streamnames := [], retentiondays := [] }, none) :=
  inspect_failure_drops_message envInspectFail _ _ 0 "inspect failed"
    (Or.inl rfl) rfl

/-! ### C6 -/

/-- Events recorded by `groupExists` are list-group calls only: never
ambiguous stream listings and never appends. -/
theorem groupExists_events {σ : Type} (svc : AwsService σ) (g : String) (s : σ)
    (ev : AwsEvent) (h : ev ∈ (groupExists svc g s).2.2) :
    ambiguousEv ev = false ∧ isPutEv ev = false := by
  unfold groupExists at h
  rcases hq : svc.describeLogGroups g s with ⟨r, sA⟩
  rw [hq] at h
  cases r with
  | error e =>
    simp at h
    subst h
    exact ⟨rfl, rfl⟩
  | ok gs =>
    simp at h
    subst h
    exact ⟨rfl, rfl⟩

/-- Events recorded by `createGroupWithRetention` are group-create and
retention calls only: never ambiguous stream listings and never
appends. -/
theorem createGroupWithRetention_events {σ : Type} (svc : AwsService σ)
    (rd : String → Option Int) (g : String) (s : σ) (ev : AwsEvent)
    (h : ev ∈ (createGroupWithRetention svc rd g s).2.2) :
    ambiguousEv ev = false ∧ isPutEv ev = false := by
  rcases hq : svc.createLogGroup g s with ⟨r, sA⟩
  cases r with
  | error e =>
    have heq : (createGroupWithRetention svc rd g s).2.2 =
        [AwsEvent.createGroup g (Res.error e)] := by
      simp [createGroupWithRetention, hq]
    rw [heq] at h
    simp at h
    subst h
    exact ⟨rfl, rfl⟩
  | ok u =>
    cases hrd : rd g with
    | none =>
      have heq : (createGroupWithRetention svc rd g s).2.2 =
          [AwsEvent.createGroup g (Res.ok ())] := by
        simp [createGroupWithRetention, hq, hrd]
      rw [heq] at h
      simp at h
      subst h
      exact ⟨rfl, rfl⟩
    | some d =>
      rcases hp : svc.putRetentionPolicy g d sA with ⟨rp, sB⟩
      cases rp with
      | error e =>
        have heq : (createGroupWithRetention svc rd g s).2.2 =
            [AwsEvent.createGroup g (Res.ok ()), AwsEvent.putRetention g d (Res.error e)] := by
          simp [createGroupWithRetention, hq, hrd, hp]
        rw [heq] at h
        simp at h
        rcases h with h | h <;> subst h <;> exact ⟨rfl, rfl⟩
      | ok u2 =>
        have heq : (createGroupWithRetention svc rd g s).2.2 =
            [AwsEvent.createGroup g (Res.ok ()), AwsEvent.putRetention g d (Res.ok ())] := by
          simp [createGroupWithRetention, hq, hrd, hp]
        rw [heq] at h
        simp at h
        rcases h with h | h <;> subst h <;> exact ⟨rfl, rfl⟩

/-- In a `getSequenceToken` trace no append call ever occurs, and an
ambiguous stream listing (a successful `listStreams` response with more
than one match) is always the final event of the trace, with the
ambiguity error as the function's result. -/
theorem getSequenceToken_events {σ : Type} (svc : AwsService σ)
    (rd : String → Option Int) (msg : CloudwatchMessage) (fuel : Nat) :
    ∀ (s : σ) (ev : AwsEvent),
      ev ∈ (getSequenceToken svc rd msg fuel s).2.2 →
      isPutEv ev = false ∧
      (ambiguousEv ev = true →
        ∃ L, ev = AwsEvent.listStreams msg.Group msg.Stream (Res.ok L) ∧
          1 < L.length ∧
          (getSequenceToken svc rd msg fuel s).1 =
            Res.error (errAmbiguity L.length msg.Group msg.Stream) ∧
          (getSequenceToken svc rd msg fuel s).2.2.getLast? = some ev) := by
  induction fuel with
  | zero =>
    intro s ev h
    simp [getSequenceToken] at h
  | succ fuel ih =>
    intro s ev h
    rcases hA : groupExists svc msg.Group s with ⟨rA, sA, trA⟩
    have hAev : ∀ e2, e2 ∈ trA → ambiguousEv e2 = false ∧ isPutEv e2 = false := by
      intro e2 he2
      exact groupExists_events svc msg.Group s e2 (by rw [hA]; exact he2)
    cases rA with
    | error e =>
      simp only [getSequenceToken, hA] at h ⊢
      exact ⟨(hAev ev h).2, fun hamb => by simp [(hAev ev h).1] at hamb⟩
    | ok ge =>
      rcases hB : (if ge then (Res.ok (), sA, ([] : List AwsEvent))
                   else createGroupWithRetention svc rd msg.Group sA) with ⟨rB, sB, trB⟩
      have hBev : ∀ e2, e2 ∈ trB → ambiguousEv e2 = false ∧ isPutEv e2 = false := by
        intro e2 he2
        cases ge with
        | false =>
          have hB' : createGroupWithRetention svc rd msg.Group sA = (rB, sB, trB) := by
            simpa using hB
          exact createGroupWithRetention_events svc rd msg.Group sA e2
            (by rw [hB']; exact he2)
        | true =>
          have htrB : trB = [] := by
            have hc := congrArg (fun t => t.2.2) hB
            simpa using hc.symm
          rw [htrB] at he2
          simp at he2
      have hPre : ∀ e2, e2 ∈ trA ++ trB →
          ambiguousEv e2 = false ∧ isPutEv e2 = false := by
        intro e2 he2
        rcases List.mem_append.mp he2 with h2 | h2
        · exact hAev e2 h2
        · exact hBev e2 h2
      cases rB with
      | error e =>
        simp only [getSequenceToken, hA, hB] at h ⊢
        exact ⟨(hPre ev h).2, fun hamb => by simp [(hPre ev h).1] at hamb⟩
      | ok u =>
        rcases hC : svc.describeLogStreams msg.Group msg.Stream sB with ⟨rC, sC⟩
        cases rC with
        | error e =>
          simp only [getSequenceToken, hA, hB, hC] at h ⊢
          rcases List.mem_append.mp h with h2 | h2
          · exact ⟨(hPre ev h2).2, fun hamb => by simp [(hPre ev h2).1] at hamb⟩
          · have hev : ev = AwsEvent.listStreams msg.Group msg.Stream (Res.error e) := by
              simpa using h2
            subst hev
            exact ⟨rfl, fun hamb => by simp [ambiguousEv] at hamb⟩
        | ok streams =>
          cases streams with
          | nil =>
            rcases hD : svc.createLogStream msg.Group msg.Stream sC with ⟨rD, sD⟩
            cases rD with
            | error e =>
              simp only [getSequenceToken, hA, hB, hC, hD] at h ⊢
              rcases List.mem_append.mp h with h2 | h2
              · exact ⟨(hPre ev h2).2, fun hamb => by simp [(hPre ev h2).1] at hamb⟩
              · rcases (by simpa using h2 :
                  ev = AwsEvent.listStreams msg.Group msg.Stream (Res.ok []) ∨
                  ev = AwsEvent.createStream msg.Group msg.Stream (Res.error e))
                  with hev | hev <;> subst hev
                · exact ⟨rfl, fun hamb => by simp [ambiguousEv] at hamb⟩
                · exact ⟨rfl, fun hamb => by simp [ambiguousEv] at hamb⟩
            | ok u3 =>
              rcases hE : getSequenceToken svc rd msg fuel sD with ⟨rE, sE, trE⟩
              simp only [getSequenceToken, hA, hB, hC, hD, hE] at h ⊢
              rcases List.mem_append.mp h with h2 | h2
              · rcases List.mem_append.mp h2 with h3 | h3
                · exact ⟨(hPre ev h3).2, fun hamb => by simp [(hPre ev h3).1] at hamb⟩
                · rcases (by simpa using h3 :
                    ev = AwsEvent.listStreams msg.Group msg.Stream (Res.ok []) ∨
                    ev = AwsEvent.createStream msg.Group msg.Stream (Res.ok ()))
                    with hev | hev <;> subst hev
                  · exact ⟨rfl, fun hamb => by simp [ambiguousEv] at hamb⟩
                  · exact ⟨rfl, fun hamb => by simp [ambiguousEv] at hamb⟩
              · have hih := ih sD ev (by rw [hE]; exact h2)
                rw [hE] at hih
                refine ⟨hih.1, fun hamb => ?_⟩
                rcases hih.2 hamb with ⟨L, hev, hlen, hres, hlast⟩
                refine ⟨L, hev, hlen, hres, ?_⟩
                rw [List.getLast?_append, hlast]
                rfl
          | cons stOne rest =>
            cases rest with
            | nil =>
              simp only [getSequenceToken, hA, hB, hC] at h ⊢
              rcases List.mem_append.mp h with h2 | h2
              · exact ⟨(hPre ev h2).2, fun hamb => by simp [(hPre ev h2).1] at hamb⟩
              · have hev : ev = AwsEvent.listStreams msg.Group msg.Stream
                    (Res.ok [stOne]) := by simpa using h2
                subst hev
                exact ⟨rfl, fun hamb => by simp [ambiguousEv] at hamb⟩
            | cons stTwo more =>
              simp only [getSequenceToken, hA, hB, hC] at h ⊢
              rcases List.mem_append.mp h with h2 | h2
              · exact ⟨(hPre ev h2).2, fun hamb => by simp [(hPre ev h2).1] at hamb⟩
              · have hev : ev = AwsEvent.listStreams msg.Group msg.Stream
                    (Res.ok (stOne :: stTwo :: more)) := by simpa using h2
                subst hev
                refine ⟨rfl, fun _ => ⟨stOne :: stTwo :: more, rfl, by simp, by simp, ?_⟩⟩
                rw [List.getLast?_append]
                rfl

/-- C6: whenever a stream listing during a delivery attempt returns
more than one matching stream, the delivery fails with the ambiguity
error, the ambiguous listing is the final remote call of the attempt —
so no stream creation and no other call follows it — and no append
call occurs anywhere in the attempt's trace. -/
theorem ambiguous_streams_halt_delivery {σ : Type} (svc : AwsService σ)
    (rd : String → Option Int) (fuel : Nat) (st : UploaderState σ)
    (b : CloudwatchBatch) (ev : AwsEvent)
    (hmem : ev ∈ (startStep svc rd fuel st b).2.2)
    (hamb : ambiguousEv ev = true) :
    (∃ msg tl L, b.Msgs = msg :: tl ∧
       ev = AwsEvent.listStreams msg.Group msg.Stream (Res.ok L) ∧ 1 < L.length ∧
       (startStep svc rd fuel st b).1 =
         .dropped (errAmbiguity L.length msg.Group msg.Stream)) ∧
    (startStep svc rd fuel st b).2.2.getLast? = some ev ∧
    ∀ e2 ∈ (startStep svc rd fuel st b).2.2, isPutEv e2 = false := by
  cases hbm : b.Msgs with
  | nil =>
    simp only [startStep, hbm] at hmem
    simp at hmem
  | cons msg tl =>
    cases hlk : mapLookup st.tokens msg.Container with
    | some cached =>
      have hres : resolveToken svc rd fuel st msg =
          (Res.ok (some cached), st, []) := by
        simp [resolveToken, hlk]
      rcases hput : svc.putLogEvents
          { LogEvents := mkEvents (msg :: tl), LogGroupName := msg.Group,
            LogStreamName := msg.Stream, SequenceToken := some cached } st.svc
        with ⟨rp, sB⟩
      have htr : (startStep svc rd fuel st b).2.2 =
          [AwsEvent.putLogEvents
            { LogEvents := mkEvents (msg :: tl), LogGroupName := msg.Group,
              LogStreamName := msg.Stream, SequenceToken := some cached } rp] := by
        cases rp <;> simp [startStep, hbm, hres, hput]
      rw [htr] at hmem
      have hev := List.mem_singleton.mp hmem
      subst hev
      simp [ambiguousEv] at hamb
    | none =>
      rcases hg : getSequenceToken svc rd msg fuel st.svc with ⟨rg, sA, tr⟩
      have hgev : ∀ e2, e2 ∈ tr →
          isPutEv e2 = false ∧
          (ambiguousEv e2 = true →
            ∃ L, e2 = AwsEvent.listStreams msg.Group msg.Stream (Res.ok L) ∧
              1 < L.length ∧
              (getSequenceToken svc rd msg fuel st.svc).1 =
                Res.error (errAmbiguity L.length msg.Group msg.Stream) ∧
              (getSequenceToken svc rd msg fuel st.svc).2.2.getLast? = some e2) := by
        intro e2 he2
        exact getSequenceToken_events svc rd msg fuel st.svc e2 (by rw [hg]; exact he2)
      cases rg with
      | error e =>
        have hres : resolveToken svc rd fuel st msg =
            (Res.error e, { st with svc := sA }, tr) := by
          simp [resolveToken, hlk, hg]
        have hstep : startStep svc rd fuel st b =
            (.dropped e, { st with svc := sA }, tr) := by
          simp [startStep, hbm, hres]
        rw [hstep] at hmem
        obtain ⟨hput1, hambpart⟩ := hgev ev hmem
        rcases hambpart hamb with ⟨L, hev, hlen, hres2, hlast⟩
        rw [hg] at hres2 hlast
        refine ⟨⟨msg, tl, L, rfl, hev, hlen, ?_⟩, ?_, ?_⟩
        · rw [hstep]
          injection hres2 with he
          rw [he]
        · rw [hstep]
          exact hlast
        · intro e2 he2
          rw [hstep] at he2
          exact (hgev e2 he2).1
      | ok tok =>
        obtain ⟨st1, hres⟩ : ∃ st1, resolveToken svc rd fuel st msg =
            (Res.ok tok, st1, tr) := by
          cases tok with
          | none => exact ⟨{ st with svc := sA }, by simp [resolveToken, hlk, hg]⟩
          | some t =>
            exact ⟨{ tokens := mapInsert st.tokens msg.Container t, svc := sA },
              by simp [resolveToken, hlk, hg]⟩
        rcases hput : svc.putLogEvents
            { LogEvents := mkEvents (msg :: tl), LogGroupName := msg.Group,
              LogStreamName := msg.Stream, SequenceToken := tok } st1.svc
          with ⟨rp, sB⟩
        have htr : (startStep svc rd fuel st b).2.2 =
            tr ++ [AwsEvent.putLogEvents
              { LogEvents := mkEvents (msg :: tl), LogGroupName := msg.Group,
                LogStreamName := msg.Stream, SequenceToken := tok } rp] := by
          cases rp <;> simp [startStep, hbm, hres, hput]
        rw [htr] at hmem
        rcases List.mem_append.mp hmem with h2 | h2
        · obtain ⟨hput1, hambpart⟩ := hgev ev h2
          rcases hambpart hamb with ⟨L, hev, hlen, hres2, hlast⟩
          rw [hg] at hres2
          simp at hres2
        · have hev := List.mem_singleton.mp h2
          subst hev
          simp [ambiguousEv] at hamb

/-- Witness for `ambiguous_streams_halt_delivery`: the mock holds two
streams matching the prefix `web-1`; the ambiguous listing is the last
call of the delivery. -/
theorem ambiguous_streams_halt_delivery_witness :
    (startStep mockSvc rdNone 5 ⟨[], mockTwo⟩ batch3).2.2.getLast? =
      some (AwsEvent.listStreams "app" "web-1"
        (Res.ok [{ Name := "web-1a", UploadSequenceToken := some "T1" },
                 { Name := "web-1b", UploadSequenceToken := some "T2" }])) :=
  (ambiguous_streams_halt_delivery mockSvc rdNone 5 ⟨[], mockTwo⟩ batch3
    (AwsEvent.listStreams "app" "web-1"
      (Res.ok [{ Name := "web-1a", UploadSequenceToken := some "T1" },
               { Name := "web-1b", UploadSequenceToken := some "T2" }]))
    (by decide) (by decide)).2.1

/-! ### C9 -/

/-- The event list built from a batch has one event per message, in
order, carrying the message text and the arrival time truncated from
nanoseconds to milliseconds. -/
theorem mkEvents_spec (msgs : List CloudwatchMessage) :
    (mkEvents msgs).length = msgs.length ∧
    ∀ (i : Nat) (hi : i < msgs.length) (hi2 : i < (mkEvents msgs).length),
      ((mkEvents msgs).get ⟨i, hi2⟩).Message = (msgs.get ⟨i, hi⟩).Message ∧
      ((mkEvents msgs).get ⟨i, hi2⟩).Timestamp =
        (msgs.get ⟨i, hi⟩).TimeNano.tdiv 1000000 := by
  constructor
  · simp [mkEvents]
  · intro i hi hi2
    simp [mkEvents]

/-- C9: every append call submitted during a delivery carries exactly
one event per message of the batch, in batch order, each event's text
equal to the message's text and its timestamp equal to the message's
arrival time truncated to millisecond precision. -/
theorem append_events_match_batch {σ : Type} (svc : AwsService σ)
    (rd : String → Option Int) (fuel : Nat) (st : UploaderState σ)
    (b : CloudwatchBatch) (inp : PutLogEventsInput) (r : Res (Option String))
    (hmem : AwsEvent.putLogEvents inp r ∈ (startStep svc rd fuel st b).2.2) :
    inp.LogEvents.length = b.Msgs.length ∧
    ∀ (i : Nat) (hi : i < b.Msgs.length) (hi2 : i < inp.LogEvents.length),
      (inp.LogEvents.get ⟨i, hi2⟩).Message = (b.Msgs.get ⟨i, hi⟩).Message ∧
      (inp.LogEvents.get ⟨i, hi2⟩).Timestamp =
        (b.Msgs.get ⟨i, hi⟩).TimeNano.tdiv 1000000 := by
  have hinp : inp.LogEvents = mkEvents b.Msgs := by
    cases hbm : b.Msgs with
    | nil =>
      simp only [startStep, hbm] at hmem
      simp at hmem
    | cons msg tl =>
      cases hlk : mapLookup st.tokens msg.Container with
      | some cached =>
        have hres : resolveToken svc rd fuel st msg =
            (Res.ok (some cached), st, []) := by
          simp [resolveToken, hlk]
        rcases hput : svc.putLogEvents
            { LogEvents := mkEvents (msg :: tl), LogGroupName := msg.Group,
              LogStreamName := msg.Stream, SequenceToken := some cached } st.svc
          with ⟨rp, sB⟩
        have htr : (startStep svc rd fuel st b).2.2 =
            [AwsEvent.putLogEvents
              { LogEvents := mkEvents (msg :: tl), LogGroupName := msg.Group,
                LogStreamName := msg.Stream, SequenceToken := some cached } rp] := by
          cases rp <;> simp [startStep, hbm, hres, hput]
        rw [htr] at hmem
        have hev := List.mem_singleton.mp hmem
        injection hev with h1 h2
        rw [h1]
      | none =>
        rcases hg : getSequenceToken svc rd msg fuel st.svc with ⟨rg, sA, tr⟩
        have hnoput : ∀ e2, e2 ∈ tr → isPutEv e2 = false := by
          intro e2 he2
          exact (getSequenceToken_events svc rd msg fuel st.svc e2
            (by rw [hg]; exact he2)).1
        cases rg with
        | error e =>
          have hres : resolveToken svc rd fuel st msg =
              (Res.error e, { st with svc := sA }, tr) := by
            simp [resolveToken, hlk, hg]
          have hstep : startStep svc rd fuel st b =
              (.dropped e, { st with svc := sA }, tr) := by
            simp [startStep, hbm, hres]
          rw [hstep] at hmem
          have := hnoput _ hmem
          simp [isPutEv] at this
        | ok tok =>
          obtain ⟨st1, hres⟩ : ∃ st1, resolveToken svc rd fuel st msg =
              (Res.ok tok, st1, tr) := by
            cases tok with
            | none => exact ⟨{ st with svc := sA }, by simp [resolveToken, hlk, hg]⟩
            | some t =>
              exact ⟨{ tokens := mapInsert st.tokens msg.Container t, svc := sA },
                by simp [resolveToken, hlk, hg]⟩
          rcases hput : svc.putLogEvents
              { LogEvents := mkEvents (msg :: tl), LogGroupName := msg.Group,
                LogStreamName := msg.Stream, SequenceToken := tok } st1.svc
            with ⟨rp, sB⟩
          have htr : (startStep svc rd fuel st b).2.2 =
              tr ++ [AwsEvent.putLogEvents
                { LogEvents := mkEvents (msg :: tl), LogGroupName := msg.Group,
                  LogStreamName := msg.Stream, SequenceToken := tok } rp] := by
            cases rp <;> simp [startStep, hbm, hres, hput]
          rw [htr] at hmem
          rcases List.mem_append.mp hmem with h2 | h2
          · have := hnoput _ h2
            simp [isPutEv] at this
          · have hev := List.mem_singleton.mp h2
            injection hev with h1 h2'
            rw [h1]
  rw [hinp]
  exact mkEvents_spec b.Msgs

/-- Witness for `append_events_match_batch`: the append submitted for
`batch3` against the ready mock carries this concrete event list. -/
theorem append_events_match_batch_witness :
    (AwsEvent.putLogEvents
        { LogEvents := mkEvents batch3.Msgs, LogGroupName := "app",
          LogStreamName := "web-1", SequenceToken := some "T0" }
        (Res.ok (some "tk0")) ∈
      (startStep mockSvc rdNone 5 ⟨[], mockReady⟩ batch3).2.2) ∧
    ({ LogEvents := mkEvents batch3.Msgs, LogGroupName := "app",
       LogStreamName := "web-1",
       SequenceToken := some "T0" } : PutLogEventsInput).LogEvents.length =
      batch3.Msgs.length :=
  ⟨by decide,
   (append_events_match_batch mockSvc rdNone 5 ⟨[], mockReady⟩ batch3
     { LogEvents := mkEvents batch3.Msgs, LogGroupName := "app",
       LogStreamName := "web-1", SequenceToken := some "T0" }
     (Res.ok (some "tk0")) (by decide)).1⟩

end Logspout

